import Mathlib

/-!
Verification of the `iter-map` Rust crate (src/lib.rs).

The crate defines:
* `ParamFromFnIter<F, D>` — a struct holding a callback `F: FnMut(&mut D) -> Option<R>`
  and a data value `D`.  Its `Iterator::next` simply calls `(self.callback)(&mut self.data)`.
* `IntoIterMap::iter_map` — a blanket extension on any `IntoIterator`, defined as
  `ParamFromFnIter::new(self.into_iter(), callback)`.

Shallow embedding: a Rust `FnMut` closure is a pure transition function together with
its captured state, so `F` is modelled as a structure `FnMutClosure` holding a captured
state `s : σ` and a pure step `fn : σ → D → Option R × σ × D` (the callback may mutate
both its captured state and the `&mut D` argument).  A Rust iterator over `T` is
modelled, as usual for list-backed sources, by a `List T` with
`next : List T → Option T × List T`.
-/

/-- Rust iterator step for a list-backed source: `next` returns the head (if any)
and the advanced iterator, mirroring `Iterator::next` on slices/chars. -/
def ListIter.next {T : Type} (s : List T) : Option T × List T :=
  match s with
  | [] => (none, [])
  | h :: t => (some h, t)

/-- Model of a Rust `FnMut(&mut D) -> Option R` closure: its captured state `state`
plus a pure transition `fn` taking the captured state and the `&mut D` argument and
returning the result together with the updated captured state and updated data. -/
structure FnMutClosure (σ D R : Type) where
  state : σ
  fn : σ → D → Option R × σ × D

/-- Model of the struct `ParamFromFnIter<F, D>` with fields `callback: F` and
`data: D` (lib.rs lines 32-36). -/
structure ParamFromFnIter (σ D R : Type) where
  callback : FnMutClosure σ D R
  data : D

/-- Model of `ParamFromFnIter::new(data, callback)` (lib.rs lines 114-117):
`ParamFromFnIter { callback, data }`. -/
def ParamFromFnIter.new {σ D R : Type} (data : D) (callback : FnMutClosure σ D R) :
    ParamFromFnIter σ D R :=
  { callback := callback, data := data }

/-- Model of `Iterator::next` for `ParamFromFnIter` (lib.rs lines 131-134):
`(self.callback)(&mut self.data)`.  Returns the callback's result together with the
updated iterator (updated captured closure state and updated data). -/
def ParamFromFnIter.next {σ D R : Type} (it : ParamFromFnIter σ D R) :
    Option R × ParamFromFnIter σ D R :=
  let out := it.callback.fn it.callback.state it.data
  (out.1, { callback := { state := out.2.1, fn := it.callback.fn }, data := out.2.2 })

/-- Results of `n` consecutive `next` calls (the raw sequence of `Option` values). -/
def ParamFromFnIter.pullResults {σ D R : Type} :
    Nat → ParamFromFnIter σ D R → List (Option R)
  | 0, _ => []
  | n + 1, it => it.next.1 :: ParamFromFnIter.pullResults n it.next.2

/-- Iterator state after `n` consecutive `next` calls. -/
def ParamFromFnIter.pullState {σ D R : Type} :
    Nat → ParamFromFnIter σ D R → ParamFromFnIter σ D R
  | 0, it => it
  | n + 1, it => ParamFromFnIter.pullState n it.next.2

/-- Model of `Iterator::collect::<Vec<_>>()`: repeatedly call `next`, stopping at the
first `None`.  Rust's loop is unbounded; `fuel` bounds the recursion, and a separate
lemma shows the result is stable once the fuel exceeds the number of pulls made. -/
def ParamFromFnIter.collect {σ D R : Type} :
    Nat → ParamFromFnIter σ D R → List R
  | 0, _ => []
  | fuel + 1, it =>
    match it.next with
    | (none, _) => []
    | (some r, it') => r :: ParamFromFnIter.collect fuel it'

/-- Model of `IntoIterMap::iter_map` (lib.rs lines 185-188):
`ParamFromFnIter::new(self.into_iter(), callback)`.  The `IntoIterator` bound is
modelled by an explicit conversion `intoIter : J → I` from the source type to its
iterator type. -/
def iter_map {J I R σ : Type} (intoIter : J → I) (source : J)
    (callback : FnMutClosure σ I R) : ParamFromFnIter σ I R :=
  ParamFromFnIter.new (intoIter source) callback

/-- Instrumented version of a callback transition: an extra counter in the captured
state is incremented on every invocation, so the counter counts exactly the callback
invocations.  Used to express "the wrapper invokes the callback exactly once per
pull". -/
def instrument {σ D R : Type} (fn : σ → D → Option R × σ × D) :
    σ × Nat → D → Option R × (σ × Nat) × D :=
  fun p d =>
    let out := fn p.1 d
    (out.1, (out.2.1, p.2 + 1), out.2.2)

/-- Simulation: the instrumented iterator tracks the plain iterator exactly, and its
invocation counter after `n` pulls is the initial counter plus `n`. -/
lemma instrument_pullState {σ D R : Type} (fn : σ → D → Option R × σ × D) :
    ∀ (n : Nat) (s : σ) (k : Nat) (d : D),
      ParamFromFnIter.pullState n
          (ParamFromFnIter.new d ⟨(s, k), instrument fn⟩)
        = ParamFromFnIter.new
            (ParamFromFnIter.pullState n (ParamFromFnIter.new d ⟨s, fn⟩)).data
            ⟨((ParamFromFnIter.pullState n
                (ParamFromFnIter.new d ⟨s, fn⟩)).callback.state, k + n),
              instrument fn⟩ := by
  intro n
  induction n with
  | zero =>
    intro s k d
    rfl
  | succ m ih =>
    intro s k d
    simp only [ParamFromFnIter.pullState, ParamFromFnIter.next, ParamFromFnIter.new,
      instrument]
    have h := ih (fn s d).2.1 (k + 1) (fn s d).2.2
    simp only [ParamFromFnIter.new] at h
    rw [h]
    have : k + 1 + m = k + (m + 1) := by omega
    rw [this]

/-- Simulation for results: the instrumented iterator produces the same sequence of
`Option` results as the plain one. -/
lemma instrument_pullResults {σ D R : Type} (fn : σ → D → Option R × σ × D) :
    ∀ (n : Nat) (s : σ) (k : Nat) (d : D),
      ParamFromFnIter.pullResults n
          (ParamFromFnIter.new d ⟨(s, k), instrument fn⟩)
        = ParamFromFnIter.pullResults n (ParamFromFnIter.new d ⟨s, fn⟩) := by
  intro n
  induction n with
  | zero =>
    intro s k d
    rfl
  | succ m ih =>
    intro s k d
    simp only [ParamFromFnIter.pullResults, ParamFromFnIter.next, ParamFromFnIter.new,
      instrument]
    congr 1
    exact ih (fn s d).2.1 (k + 1) (fn s d).2.2

/-- C1: a single pull is exactly one callback invocation on the current state, the
result is returned unmodified, and over `n` pulls the instrumented invocation counter
is exactly `n` while the results are unchanged by the instrumentation. -/
theorem next_is_one_callback_invocation {σ D R : Type}
    (fn : σ → D → Option R × σ × D) (s : σ) (d : D) (n : Nat) :
    (ParamFromFnIter.new d ⟨s, fn⟩).next
        = ((fn s d).1, ParamFromFnIter.new (fn s d).2.2 ⟨(fn s d).2.1, fn⟩)
    ∧ (ParamFromFnIter.pullState n
          (ParamFromFnIter.new d ⟨(s, 0), instrument fn⟩)).callback.state.2 = n
    ∧ ParamFromFnIter.pullResults n
          (ParamFromFnIter.new d ⟨(s, 0), instrument fn⟩)
        = ParamFromFnIter.pullResults n (ParamFromFnIter.new d ⟨s, fn⟩) := by
  refine ⟨rfl, ?_, instrument_pullResults fn n s 0 d⟩
  rw [instrument_pullState fn n s 0 d]
  simp [ParamFromFnIter.new]

/-- C2: `source.iter_map(callback)` and `ParamFromFnIter::new(source.into_iter(),
callback)` are observably equivalent under repeated pulling: for every `n` the
sequences of optional items of the first `n` pulls agree. -/
theorem iter_map_eq_new_into_iter {J I R σ : Type} (intoIter : J → I) (source : J)
    (callback : FnMutClosure σ I R) (n : Nat) :
    ParamFromFnIter.pullResults n (iter_map intoIter source callback)
      = ParamFromFnIter.pullResults n
          (ParamFromFnIter.new (intoIter source) callback) := rfl

/-- C3: construction stores both values unchanged, and performs no callback
invocation and no state modification: the constructed instance's fields are exactly
the arguments, and the instrumented invocation counter is still its initial value
after construction (pull, `pullState n` with `n > 0`, is the only operation that
changes the instance at all: `pullState 0` is the identity and the fields change only
through `next`). -/
theorem new_stores_unchanged_no_invocation {σ D R : Type}
    (fn : σ → D → Option R × σ × D) (cb : FnMutClosure σ D R) (s : σ) (d : D)
    (k : Nat) :
    (ParamFromFnIter.new d cb).data = d
    ∧ (ParamFromFnIter.new d cb).callback = cb
    ∧ (ParamFromFnIter.new d ⟨(s, k), instrument fn⟩).callback.state.2 = k
    ∧ ParamFromFnIter.pullState 0 (ParamFromFnIter.new d cb)
        = ParamFromFnIter.new d cb :=
  ⟨rfl, rfl, rfl, rfl⟩

/-- Callback for the empty-source scenario: on each call it simply delegates to the
wrapped source iterator's own `next` (Rust: `|iter| iter.next()`), carrying no
captured state. -/
def delegateFn {T : Type} : Unit → List T → Option T × Unit × List T :=
  fun _ d =>
    let p := ListIter.next d
    (p.1, (), p.2)

/-- C6: for an empty source and the delegating callback, the first pull returns
`none` and collecting (with any fuel) yields zero items. -/
theorem empty_source_first_pull_none {T : Type} (fuel : Nat) :
    (iter_map id ([] : List T) ⟨(), delegateFn⟩).next.1 = none
    ∧ ParamFromFnIter.collect fuel (iter_map id ([] : List T) ⟨(), delegateFn⟩)
        = [] := by
  constructor
  · rfl
  · cases fuel with
    | zero => rfl
    | succ m => rfl

/-- Callback for the unbounded-counter scenario (Scenario D): the state is the unit
value, the callback captures a counter and always returns `some` of it, incrementing
it on every call. -/
def counterFn : Nat → Unit → Option Nat × Nat × Unit :=
  fun i _ => (some i, i + 1, ())

/-- After `n` pulls the counter iterator's captured counter has advanced by `n`. -/
lemma counterFn_pullState :
    ∀ (n i : Nat),
      ParamFromFnIter.pullState n (ParamFromFnIter.new () ⟨i, counterFn⟩)
        = ParamFromFnIter.new () ⟨i + n, counterFn⟩ := by
  intro n
  induction n with
  | zero =>
    intro i
    rfl
  | succ m ih =>
    intro i
    simp only [ParamFromFnIter.pullState, ParamFromFnIter.next, ParamFromFnIter.new,
      counterFn]
    have h := ih (i + 1)
    simp only [ParamFromFnIter.new] at h
    rw [h]
    have : i + 1 + m = i + (m + 1) := by omega
    rw [this]

/-- The first `k` pulls of the counter iterator starting at `i` yield
`some i, some (i+1), ...`. -/
lemma counterFn_pullResults :
    ∀ (k i : Nat),
      ParamFromFnIter.pullResults k (ParamFromFnIter.new () ⟨i, counterFn⟩)
        = (List.range' i k).map some := by
  intro k
  induction k with
  | zero =>
    intro i
    rfl
  | succ m ih =>
    intro i
    simp only [ParamFromFnIter.pullResults, ParamFromFnIter.next, ParamFromFnIter.new,
      counterFn, List.range', List.map]
    congr 1
    exact ih (i + 1)

/-- C7: the wrapper imposes no termination condition: for the unit-state,
always-`some` incrementing-counter callback, the pull after any `n` pulls returns
`some n` (never the end-signal), and the first `K` pulls yield
`[0, 1, ..., K-1]`. -/
theorem counter_iterator_never_ends (n K : Nat) :
    (ParamFromFnIter.pullState n
        (ParamFromFnIter.new () ⟨0, counterFn⟩)).next.1 = some n
    ∧ ParamFromFnIter.pullResults K (ParamFromFnIter.new () ⟨0, counterFn⟩)
        = (List.range K).map some := by
  constructor
  · rw [counterFn_pullState n 0]
    simp [ParamFromFnIter.next, ParamFromFnIter.new, counterFn]
  · rw [counterFn_pullResults K 0, List.range_eq_range']

/-- C8: pull does not special-case exhaustion: even when the first pull returned the
end-signal `none`, the second pull still performs exactly one callback invocation on
the post-first-pull state and returns its result unmodified — the wrapper never
latches into a fused state. -/
theorem no_fused_special_case {σ D R : Type}
    (fn : σ → D → Option R × σ × D) (s : σ) (d : D)
    (_h : (ParamFromFnIter.new d ⟨s, fn⟩).next.1 = none) :
    ((ParamFromFnIter.new d ⟨s, fn⟩).next.2).next
      = ((fn (fn s d).2.1 (fn s d).2.2).1,
          ParamFromFnIter.new (fn (fn s d).2.1 (fn s d).2.2).2.2
            ⟨(fn (fn s d).2.1 (fn s d).2.2).2.1, fn⟩) := rfl

/-- Callback used to witness C8: returns `none` on its first call and
`some` of its counter afterwards. -/
def noneThenSomeFn : Nat → Unit → Option Nat × Nat × Unit :=
  fun n _ => (if n = 0 then none else some n, n + 1, ())

/-- Witness for C8 at a concrete callback whose first call returns `none` and whose
second call returns `some 1`: the hypothesis holds and the second pull still invokes
the callback. -/
theorem no_fused_special_case_witness :
    (ParamFromFnIter.new () ⟨0, noneThenSomeFn⟩).next.1 = none
    ∧ ((ParamFromFnIter.new () ⟨0, noneThenSomeFn⟩).next.2).next
        = ((noneThenSomeFn (noneThenSomeFn 0 ()).2.1 (noneThenSomeFn 0 ()).2.2).1,
            ParamFromFnIter.new
              (noneThenSomeFn (noneThenSomeFn 0 ()).2.1 (noneThenSomeFn 0 ()).2.2).2.2
              ⟨(noneThenSomeFn (noneThenSomeFn 0 ()).2.1
                  (noneThenSomeFn 0 ()).2.2).2.1, noneThenSomeFn⟩) :=
  ⟨by decide, no_fused_special_case noneThenSomeFn 0 () (by decide)⟩

/-- C9: pull is deterministic and adds nothing of its own: two instances with the
same transition function, equal captured callback state and equal stored data return
equal results and leave equal states after a pull. -/
theorem next_deterministic {σ D R : Type}
    (fn : σ → D → Option R × σ × D) (s₁ s₂ : σ) (d₁ d₂ : D)
    (hs : s₁ = s₂) (hd : d₁ = d₂) :
    (ParamFromFnIter.new d₁ ⟨s₁, fn⟩).next
      = (ParamFromFnIter.new d₂ ⟨s₂, fn⟩).next := by
  rw [hs, hd]

/-- Witness for C9 at concrete equal inputs. -/
theorem next_deterministic_witness :
    (0 : Nat) = 0 ∧ (() : Unit) = ()
    ∧ (ParamFromFnIter.new () ⟨0, counterFn⟩).next
        = (ParamFromFnIter.new () ⟨0, counterFn⟩).next :=
  ⟨rfl, rfl, next_deterministic counterFn 0 0 () () rfl rfl⟩

/-- Stability of fuelled collection: once the collected list is shorter than the
fuel (i.e. collection stopped at a `none` rather than by running out of fuel), extra
fuel does not change the result. -/
lemma collect_stable {σ D R : Type} :
    ∀ (fuel k : Nat) (it : ParamFromFnIter σ D R),
      (ParamFromFnIter.collect fuel it).length < fuel →
      ParamFromFnIter.collect (fuel + k) it = ParamFromFnIter.collect fuel it := by
  intro fuel
  induction fuel with
  | zero =>
    intro k it hlen
    exact absurd hlen (Nat.not_lt_zero _)
  | succ m ih =>
    intro k it hlen
    have hfk : m + 1 + k = m + k + 1 := by omega
    rw [hfk]
    simp only [ParamFromFnIter.collect] at hlen ⊢
    cases hnext : it.next with
    | mk r it' =>
      cases r with
      | none => simp [hnext]
      | some v =>
        simp only [hnext] at hlen ⊢
        simp only [List.length_cons, Nat.add_lt_add_iff_right] at hlen
        rw [ih k it' hlen]

/-- Callback of Scenario A (lib.rs doc example and the `sanity_check` test,
lines 197-208): the captured counter `i` is incremented on every call; on every third
call the injected value `0` is returned without advancing the source; otherwise the
next source item (copied) is returned. -/
def scenarioAFn : Nat → List Int → Option Int × Nat × List Int :=
  fun i d =>
    let i' := i + 1
    if i' % 3 = 0 then (some 0, i', d)
    else
      let p := ListIter.next d
      (p.1, i', p.2)

/-- Iterator of Scenario A: `[1, 2, 3, 4, 5, 6].iter_map(callback)` with the
counter starting at `0`. -/
def scenarioAIter : ParamFromFnIter Nat (List Int) Int :=
  iter_map id [1, 2, 3, 4, 5, 6] ⟨0, scenarioAFn⟩

/-- C4: fully collecting Scenario A's iterator yields exactly
`[1, 2, 0, 3, 4, 0, 5, 6, 0]` (for every fuel at least 10, i.e. enough to reach the
terminating `none`, the fuelled collection gives this list). -/
theorem scenarioA_collect (fuel : Nat) (hf : 10 ≤ fuel) :
    ParamFromFnIter.collect fuel scenarioAIter = [1, 2, 0, 3, 4, 0, 5, 6, 0] := by
  obtain ⟨k, rfl⟩ := Nat.exists_eq_add_of_le hf
  rw [collect_stable 10 k scenarioAIter (by decide)]
  decide

/-- Witness for C4 at fuel 10. -/
theorem scenarioA_collect_witness :
    10 ≤ 10
    ∧ ParamFromFnIter.collect 10 scenarioAIter = [1, 2, 0, 3, 4, 0, 5, 6, 0] :=
  ⟨by decide, scenarioA_collect 10 (by decide)⟩

/-- Callback of Scenario B (lib.rs doc example, lines 167-184): peeks at the next
character; on an `'o'` with the captured flag `b` set, returns `'0'` without
advancing and clears the flag; otherwise sets the flag and advances the source,
returning `none` once the source is exhausted.  Peeking on the list-backed peekable
iterator is `List.head?`, which does not consume. -/
def scenarioBFn : Bool → List Char → Option Char × Bool × List Char :=
  fun b d =>
    match d.head? with
    | some ch =>
      if (ch == 'o') && b then (some '0', false, d)
      else
        let p := ListIter.next d
        (p.1, true, p.2)
    | none => (none, b, d)

/-- Iterator of Scenario B: `"hello world!".chars().peekable().iter_map(callback)`
with the flag starting at `true`. -/
def scenarioBIter : ParamFromFnIter Bool (List Char) Char :=
  iter_map id "hello world!".toList ⟨true, scenarioBFn⟩

/-- C5: fully collecting Scenario B's iterator yields exactly the characters of
`"hell0o w0orld!"` (for every fuel at least 15, enough to reach the terminating
`none`). -/
theorem scenarioB_collect (fuel : Nat) (hf : 15 ≤ fuel) :
    ParamFromFnIter.collect fuel scenarioBIter = "hell0o w0orld!".toList := by
  obtain ⟨k, rfl⟩ := Nat.exists_eq_add_of_le hf
  rw [collect_stable 15 k scenarioBIter (by decide)]
  decide

/-- Witness for C5 at fuel 15. -/
theorem scenarioB_collect_witness :
    15 ≤ 15
    ∧ ParamFromFnIter.collect 15 scenarioBIter = "hell0o w0orld!".toList :=
  ⟨by decide, scenarioB_collect 15 (by decide)⟩

/-- Model of the documented `chunk` helper (lib.rs doc example, lines 78-94): an
inner `ParamFromFnIter` with unit data whose callback captures a counter `i`
(starting at 0) and the shared `Rc<RefCell<..>>` source handle.  The shared cell's
contents are modelled as the `List T` component of the captured state: while
`i < chunk_size` the callback increments `i` and advances the shared source,
otherwise it returns `none`. -/
def chunk {T : Type} (chunkSize : Nat) (cell : List T) :
    ParamFromFnIter (Nat × List T) Unit T :=
  ParamFromFnIter.new ()
    ⟨(0, cell), fun p _ =>
      if p.1 < chunkSize then
        let q := ListIter.next p.2
        (q.1, (p.1 + 1, q.2), ())
      else (none, p, ())⟩

/-- Model of the documented `chunker` helper (lib.rs doc example, lines 61-76): an
outer `ParamFromFnIter` with unit data whose callback captures the shared peekable
source handle (modelled as its `List T` contents).  If `peek` (here `List.head?`)
finds an item it yields a fresh inner `chunk` iterator sharing the cell, otherwise
it signals end-of-sequence. -/
def chunker {T : Type} (chunkSize : Nat) (cell : List T) :
    ParamFromFnIter (List T) Unit (ParamFromFnIter (Nat × List T) Unit T) :=
  ParamFromFnIter.new ()
    ⟨cell, fun c _ =>
      match c.head? with
      | some _ => (some (chunk chunkSize c), c, ())
      | none => (none, c, ())⟩

/-- Drain an inner chunk iterator (the `for n in s` loop of the doc example): pull
until `none`, returning the collected items together with the shared cell's final
contents (read back from the captured state, modelling the `Rc<RefCell>` that the
inner iterator mutated). -/
def drainChunk {T : Type} :
    Nat → ParamFromFnIter (Nat × List T) Unit T → List T × List T
  | 0, it => ([], it.callback.state.2)
  | fuel + 1, it =>
    match it.next with
    | (none, it') => ([], it'.callback.state.2)
    | (some x, it') =>
      let r := drainChunk fuel it'
      (x :: r.1, r.2)

/-- Drive the outer chunker (the `for s in chunker(..)` loop of the doc example):
pull the outer iterator; on each yielded inner iterator, drain it fully, then write
the shared cell's new contents back into the outer callback's captured state (the
two closures hold clones of one `Rc<RefCell<..>>`, so the inner's mutation of the
source is visible to the outer on its next pull; sequential execution makes this
explicit write-back an exact model of that sharing). -/
def runChunker {T : Type} :
    Nat → ParamFromFnIter (List T) Unit (ParamFromFnIter (Nat × List T) Unit T) →
      List (List T)
  | 0, _ => []
  | fuel + 1, it =>
    match it.next with
    | (none, _) => []
    | (some inner, it') =>
      let r := drainChunk (fuel + 1) inner
      r.1 :: runChunker fuel
        { callback := { state := r.2, fn := it'.callback.fn }, data := it'.data }

/-- Formatting of the doc example's driver loop: each item is rendered as
`"{n}, "` and each chunk is terminated by a newline. -/
def formatChunks (chunks : List (List Nat)) : String :=
  String.join (chunks.map fun c =>
    String.join (c.map fun n => toString n ++ ", ") ++ "\n")

/-- C10: the documented chunker built from two cooperating `ParamFromFnIter`
instances over the shared source `[1, 2, 3, 4, 5, 6]` with chunk size 2 produces
exactly three inner iterators yielding `[1, 2]`, `[3, 4]`, `[5, 6]`, formats to
`"1, 2, \n3, 4, \n5, 6, \n"`, and the outer callback ends exactly when the shared
source is exhausted. -/
theorem chunker_doc_example :
    runChunker 10 (chunker 2 [1, 2, 3, 4, 5, 6]) = [[1, 2], [3, 4], [5, 6]]
    ∧ formatChunks (runChunker 10 (chunker 2 [1, 2, 3, 4, 5, 6]))
        = "1, 2, \n3, 4, \n5, 6, \n"
    ∧ ∀ c : List Nat, ((chunker 2 c).next.1 = none ↔ c = []) := by
  refine ⟨by decide, by decide, ?_⟩
  intro c
  cases c with
  | nil => simp [chunker, ParamFromFnIter.next, ParamFromFnIter.new]
  | cons x xs => simp [chunker, ParamFromFnIter.next, ParamFromFnIter.new]
